import Mathlib

/-!
Verification of the order-execution core of `binance_api_manager.py`
(halido/binance-trade-bot).

The Python methods are shallowly embedded as Lean functions:
strings are modelled as lists of characters, Python floats as rationals
(the spec states all numeric contracts in exact arithmetic), exceptions as
`Except` errors, and the unbounded polling loops as fuel-indexed recursions
whose fuel-exhaustion outcome (`none`) marks divergence.
-/

namespace BinanceBot

/-! ## Lot-Size Resolver (`get_alt_tick`, binance_api_manager.py:58-63) -/

/-- Model of Python `str.find`: the index of the first occurrence of `c` in the
string, or `-1` when `c` does not occur. -/
def pyFind : List Char → Char → Int
  | [], _ => -1
  | x :: xs, c =>
    if x = c then 0
    else
      let r := pyFind xs c
      if r = -1 then -1 else r + 1

/-- Model of `get_alt_tick` (lines 58-63), applied to the LOT_SIZE `stepSize`
string already extracted from the symbol filter: if the first `1` is at
index 0 the result is `1 - step_size.find(.)`, otherwise it is
`step_size.find(1) - 1`. -/
def get_alt_tick (step_size : List Char) : Int :=
  if pyFind step_size '1' = 0 then 1 - pyFind step_size '.'
  else pyFind step_size '1' - 1

/-! ## Quantity Normalizer (`sell_quantity` / `buy_quantity`, lines 68-74) -/

/-- Model of `sell_quantity` (lines 68-70) with the tick exponent already
resolved: `math.floor(alt_balance * 10 ** alt_tick) / float(10 ** alt_tick)`. -/
def sell_quantity (alt_tick : Int) (alt_balance : ℚ) : ℚ :=
  (⌊alt_balance * (10 : ℚ) ^ alt_tick⌋ : ℚ) / (10 : ℚ) ^ alt_tick

/-- Model of `buy_quantity` (lines 72-74) with the tick exponent already
resolved: `math.floor(crypto_balance * 10 ** alt_tick / ticker_price) /
float(10 ** alt_tick)`. -/
def buy_quantity (alt_tick : Int) (crypto_balance ticker_price : ℚ) : ℚ :=
  (⌊crypto_balance * (10 : ℚ) ^ alt_tick / ticker_price⌋ : ℚ) / (10 : ℚ) ^ alt_tick

/-- Cost (quantity × submitted limit price) of the limit-buy order submitted by
`_buy_alt`: the quantity is sized from the ticker price fetched at line 118
(`p_sizing`) while the limit price submitted at line 128 is a separate, later
fetch (`p_limit`). -/
def buy_order_cost (alt_tick : Int) (crypto_balance p_sizing p_limit : ℚ) : ℚ :=
  buy_quantity alt_tick crypto_balance p_sizing * p_limit

/-! ### Lemmas about `pyFind` -/

lemma pyFind_cons_self (c : Char) (l : List Char) : pyFind (c :: l) c = 0 := by
  simp [pyFind]

lemma pyFind_cons_ne (c d : Char) (l : List Char) (h : d ≠ c) :
    pyFind (d :: l) c = if pyFind l c = -1 then -1 else pyFind l c + 1 := by
  simp [pyFind, h]

lemma pyFind_replicate (k : Nat) (c d : Char) (h : d ≠ c) (l : List Char) :
    pyFind (List.replicate k d ++ c :: l) c = k := by
  induction k with
  | zero => simpa using pyFind_cons_self c l
  | succ n ih =>
    rw [List.replicate_succ, List.cons_append, pyFind_cons_ne c d _ h, ih]
    have hne : (n : Int) ≠ -1 := by omega
    simp [hne]

lemma get_alt_tick_ge_one (k m : Nat) :
    get_alt_tick ('1' :: (List.replicate k '0' ++ '.' :: List.replicate m '0'))
      = -(k : Int) := by
  have h1 : pyFind ('1' :: (List.replicate k '0' ++ '.' :: List.replicate m '0')) '1' = 0 :=
    pyFind_cons_self _ _
  have hdot : pyFind (List.replicate k '0' ++ '.' :: List.replicate m '0') '.' = k :=
    pyFind_replicate k '.' '0' (by decide) _
  have h2 : pyFind ('1' :: (List.replicate k '0' ++ '.' :: List.replicate m '0')) '.'
      = (k : Int) + 1 := by
    rw [pyFind_cons_ne _ '1' _ (by decide), hdot]
    have hne : (k : Int) ≠ -1 := by omega
    simp [hne]
  rw [get_alt_tick, if_pos h1, h2]
  ring

lemma get_alt_tick_lt_one (j m : Nat) :
    get_alt_tick ('0' :: '.' :: (List.replicate j '0' ++ '1' :: List.replicate m '0'))
      = (j : Int) + 1 := by
  have hin : pyFind (List.replicate j '0' ++ '1' :: List.replicate m '0') '1' = j :=
    pyFind_replicate j '1' '0' (by decide) _
  have hmid : pyFind ('.' :: (List.replicate j '0' ++ '1' :: List.replicate m '0')) '1'
      = (j : Int) + 1 := by
    rw [pyFind_cons_ne _ '.' _ (by decide), hin]
    have hne : (j : Int) ≠ -1 := by omega
    simp [hne]
  have htop : pyFind ('0' :: '.' :: (List.replicate j '0' ++ '1' :: List.replicate m '0')) '1'
      = (j : Int) + 2 := by
    rw [pyFind_cons_ne _ '0' _ (by decide), hmid]
    have hne : (j : Int) + 1 ≠ -1 := by omega
    rw [if_neg hne]
    ring
  rw [get_alt_tick, if_neg (by rw [htop]; omega), htop]
  ring

/-- C1: tick-exponent derivation. For step size `10^k` (k ≥ 0), written as `1`,
`k` zeros, a decimal point and any number of trailing zeros, `get_alt_tick`
yields `-k`; for step size `10^(-d)` (d ≥ 1), written as `0.`, `d-1` zeros, a
`1` and any number of trailing zeros, it yields `d`; in particular
`"0.00100000"` yields `3`, `"1.00000000"` yields `0`, and `"100.00000000"`
yields `-2`. -/
theorem c1_tick_exponent :
    (∀ k m : Nat,
        get_alt_tick ('1' :: (List.replicate k '0' ++ '.' :: List.replicate m '0'))
          = -(k : Int)) ∧
    (∀ d m : Nat, 1 ≤ d →
        get_alt_tick ('0' :: '.' :: (List.replicate (d - 1) '0' ++ '1' :: List.replicate m '0'))
          = (d : Int)) ∧
    get_alt_tick "0.00100000".toList = 3 ∧
    get_alt_tick "1.00000000".toList = 0 ∧
    get_alt_tick "100.00000000".toList = -2 := by
  refine ⟨get_alt_tick_ge_one, ?_, by decide, by decide, by decide⟩
  intro d m hd
  have h := get_alt_tick_lt_one (d - 1) m
  rw [h]
  omega

/-- Witness for C1 at `d = 3`, `m = 5` (step size `"0.00100000"`). -/
theorem c1_tick_exponent_witness :
    1 ≤ 3 ∧
    get_alt_tick ('0' :: '.' :: (List.replicate (3 - 1) '0' ++ '1' :: List.replicate 5 '0'))
      = (3 : Int) :=
  ⟨by decide, c1_tick_exponent.2.1 3 5 (by decide)⟩

/-- C2: with a resolved tick exponent `t` and balance `b ≥ 0`, `sell_quantity`
returns `⌊b·10^t⌋/10^t`; consequently the result never exceeds `b` and is a
non-negative integer multiple of `10^(-t)`. -/
theorem c2_sell_quantity_normalization (t : Int) (b : ℚ) (hb : 0 ≤ b) :
    sell_quantity t b = (⌊b * (10 : ℚ) ^ t⌋ : ℚ) / (10 : ℚ) ^ t ∧
    sell_quantity t b ≤ b ∧
    ∃ n : ℕ, sell_quantity t b = (n : ℚ) * (10 : ℚ) ^ (-t) := by
  have hpow : (0 : ℚ) < (10 : ℚ) ^ t := zpow_pos (by norm_num) t
  refine ⟨rfl, ?_, ?_⟩
  · rw [sell_quantity, div_le_iff₀ hpow]
    exact Int.floor_le _
  · refine ⟨(⌊b * (10 : ℚ) ^ t⌋).toNat, ?_⟩
    have h0 : 0 ≤ ⌊b * (10 : ℚ) ^ t⌋ := Int.le_floor.mpr (by positivity)
    have hcast : ((⌊b * (10 : ℚ) ^ t⌋.toNat : ℕ) : ℚ) = ((⌊b * (10 : ℚ) ^ t⌋ : ℤ) : ℚ) := by
      exact_mod_cast congrArg (fun z : ℤ => (z : ℚ)) (Int.toNat_of_nonneg h0)
    rw [sell_quantity, zpow_neg, div_eq_mul_inv, hcast]

/-- Witness for C2 at `t = 3`, `b = 12.3456` (sell quantity 12.345). -/
theorem c2_sell_quantity_normalization_witness :
    (0 : ℚ) ≤ 123456 / 10000 ∧
    (sell_quantity 3 (123456 / 10000)
        = (⌊(123456 / 10000 : ℚ) * (10 : ℚ) ^ (3 : Int)⌋ : ℚ) / (10 : ℚ) ^ (3 : Int) ∧
      sell_quantity 3 (123456 / 10000) ≤ 123456 / 10000 ∧
      ∃ n : ℕ, sell_quantity 3 (123456 / 10000) = (n : ℚ) * (10 : ℚ) ^ (-(3 : Int))) :=
  ⟨by norm_num, c2_sell_quantity_normalization 3 (123456 / 10000) (by norm_num)⟩

/-- C6 counterexample: in the buy path as executed the sizing price (line 118)
and the submitted limit price (line 128) are separate fetches; with balance
`b = 100`, tick exponent `t = 0`, sizing price `1` and limit price `2`, the
submitted order costs `100 × 2 = 200 > 100`, so the cost can exceed the
available quote balance. -/
theorem c6_buy_cost_counterexample : ¬ buy_order_cost 0 100 1 2 ≤ 100 := by
  have hq : buy_quantity 0 100 1 = 100 := by
    rw [buy_quantity]
    norm_num
  rw [buy_order_cost, hq]
  norm_num

/-- C6 amended: for `b ≥ 0` and positive prices, the buy quantity equals
`⌊(b/p)·10^t⌋/10^t`, and the order cost `quantity × p_limit` does not exceed
`b` whenever the submitted limit price does not exceed the sizing price — in
particular when the two price fetches return the same value. -/
theorem c6_buy_cost_amended (t : Int) (b p pl : ℚ) (hb : 0 ≤ b) (hp : 0 < p)
    (hpl : 0 < pl) (hle : pl ≤ p) :
    buy_quantity t b p = (⌊(b / p) * (10 : ℚ) ^ t⌋ : ℚ) / (10 : ℚ) ^ t ∧
    buy_order_cost t b p pl ≤ b := by
  have hpow : (0 : ℚ) < (10 : ℚ) ^ t := zpow_pos (by norm_num) t
  have harg : b * (10 : ℚ) ^ t / p = (b / p) * (10 : ℚ) ^ t := by ring
  constructor
  · rw [buy_quantity, harg]
  · have hq0 : 0 ≤ buy_quantity t b p := by
      rw [buy_quantity]
      apply div_nonneg _ (le_of_lt hpow)
      exact_mod_cast Int.le_floor.mpr (by positivity)
    have hqp : buy_quantity t b p * p ≤ b := by
      have h1 : (⌊b * (10 : ℚ) ^ t / p⌋ : ℚ) ≤ b * (10 : ℚ) ^ t / p := Int.floor_le _
      have hp' : p ≠ 0 := ne_of_gt hp
      have ht' : (10 : ℚ) ^ t ≠ 0 := ne_of_gt hpow
      calc buy_quantity t b p * p
          = (⌊b * (10 : ℚ) ^ t / p⌋ : ℚ) * p / (10 : ℚ) ^ t := by
            rw [buy_quantity]; ring
        _ ≤ (b * (10 : ℚ) ^ t / p) * p / (10 : ℚ) ^ t := by gcongr
        _ = b := by field_simp
    calc buy_order_cost t b p pl
        = buy_quantity t b p * pl := rfl
      _ ≤ buy_quantity t b p * p := mul_le_mul_of_nonneg_left hle hq0
      _ ≤ b := hqp

/-- Witness for C6 amended at `t = 3`, `b = 1`, `p = p_limit = 2`. -/
theorem c6_buy_cost_amended_witness :
    (0 : ℚ) ≤ 1 ∧ (0 : ℚ) < 2 ∧ (2 : ℚ) ≤ 2 ∧
    (buy_quantity 3 1 2 = (⌊((1 : ℚ) / 2) * (10 : ℚ) ^ (3 : Int)⌋ : ℚ) / (10 : ℚ) ^ (3 : Int) ∧
      buy_order_cost 3 1 2 2 ≤ 1) :=
  ⟨by norm_num, by norm_num, by norm_num,
    c6_buy_cost_amended 3 1 2 2 (by norm_num) (by norm_num) (by norm_num) (by norm_num)⟩

/-! ## Retry Executor (`retry`, binance_api_manager.py:41-52)

Observable events of one `retry` run: the sleep at line 42, each invocation of
the wrapped operation (line 46), the terse failure log (line 48) and the
detailed first-failure log (line 50).  Operations are modelled as
`Nat → Except E (Option A)`: the `Nat` is the attempt index, errors model
raised exceptions, and the returned Python value lives in `Option A`,
where `Option.none` is Python `None` — the same value the exhausted
executor returns at line 52. -/

/-- One observable event of a `retry` run. -/
inductive REv (E : Type) where
  | sleep (secs : Nat)
  | call (i : Nat)
  | logFail
  | logErr (e : E)
deriving DecidableEq

/-- Number of invocations of the wrapped operation recorded in a trace. -/
def numCalls {E : Type} (tr : List (REv E)) : Nat :=
  (tr.filter fun ev => match ev with | .call _ => true | _ => false).length

/-- Number of sleeps recorded in a trace. -/
def numSleeps {E : Type} (tr : List (REv E)) : Nat :=
  (tr.filter fun ev => match ev with | .sleep _ => true | _ => false).length

/-- The detailed error logs (line 50, emitted only when `attempts == 0`)
recorded in a trace. -/
def errDetails {E : Type} (tr : List (REv E)) : List E :=
  tr.filterMap fun ev => match ev with | .logErr e => some e | _ => none

/-- Loop of `retry` (lines 43-52) for a possibly diverging wrapped operation
(`f i = none` means the `i`-th invocation never returns, in which case the
whole run diverges, signalled by `none`).  Arguments: the `attempts` counter
and the remaining loop iterations `20 - attempts`. -/
def retryDGo {E A : Type} (f : Nat → Option (Except E (Option A))) :
    Nat → Nat → Option (Option A × List (REv E))
  | _, 0 => some (none, [])
  | attempts, rem + 1 =>
    match f attempts with
    | none => none
    | some (.ok v) => some (v, [.call attempts])
    | some (.error e) =>
      match retryDGo f (attempts + 1) rem with
      | none => none
      | some (r, tr) =>
        some (r, .call attempts :: .logFail ::
          ((if attempts = 0 then [REv.logErr e] else []) ++ tr))

/-- Loop of `retry` for an always-terminating wrapped operation. -/
def retryGo {E A : Type} (f : Nat → Except E (Option A)) :
    Nat → Nat → Option A × List (REv E)
  | _, 0 => (none, [])
  | attempts, rem + 1 =>
    match f attempts with
    | .ok v => (v, [.call attempts])
    | .error e =>
      let r := retryGo f (attempts + 1) rem
      (r.1, .call attempts :: .logFail ::
        ((if attempts = 0 then [REv.logErr e] else []) ++ r.2))

/-- Model of `retry` (lines 41-52): sleep one second, then run the loop with
`attempts = 0` and bound 20; on exhaustion the result is `none`
(Python `None`, line 52). -/
def retry {E A : Type} (f : Nat → Except E (Option A)) : Option A × List (REv E) :=
  let r := retryGo f 0 20
  (r.1, .sleep 1 :: r.2)

/-- Model of `retry` applied to a possibly diverging operation (used for the
`_buy_alt` / `_sell_alt` bodies, whose inner loops are unbounded). -/
def retryD {E A : Type} (f : Nat → Option (Except E (Option A))) :
    Option (Option A × List (REv E)) :=
  match retryDGo f 0 20 with
  | none => none
  | some (r, tr) => some (r, .sleep 1 :: tr)

/-- On always-terminating operations the diverging-operand model agrees with
the plain one. -/
lemma retryDGo_total {E A : Type} (f : Nat → Except E (Option A)) :
    ∀ rem attempts, retryDGo (fun i => some (f i)) attempts rem = some (retryGo f attempts rem) := by
  intro rem
  induction rem with
  | zero => intro attempts; rfl
  | succ n ih =>
    intro attempts
    rw [retryDGo, retryGo]
    cases h : f attempts with
    | ok v => simp
    | error e => simp [ih (attempts + 1)]

lemma retryD_total {E A : Type} (f : Nat → Except E (Option A)) :
    retryD (fun i => some (f i)) = some (retry f) := by
  rw [retryD, retryDGo_total f 20 0, retry]

/-! ### Behaviour of the retry loop -/

lemma numCalls_cons_fail {E : Type} (a : Nat) (e : E) (tr : List (REv E)) :
    numCalls (REv.call a :: REv.logFail ::
      ((if a = 0 then [REv.logErr e] else []) ++ tr)) = numCalls tr + 1 := by
  by_cases h : a = 0 <;> simp [h, numCalls]

lemma numSleeps_cons_fail {E : Type} (a : Nat) (e : E) (tr : List (REv E)) :
    numSleeps (REv.call a :: REv.logFail ::
      ((if a = 0 then [REv.logErr e] else []) ++ tr)) = numSleeps tr := by
  by_cases h : a = 0 <;> simp [h, numSleeps]

lemma errDetails_cons_fail {E : Type} (a : Nat) (e : E) (tr : List (REv E)) :
    errDetails (REv.call a :: REv.logFail ::
      ((if a = 0 then [REv.logErr e] else []) ++ tr))
      = (if a = 0 then [e] else []) ++ errDetails tr := by
  by_cases h : a = 0 <;> simp [h, errDetails]

/-- If every invocation in the window `[attempts, attempts + rem)` raises, the
loop returns `none` after `rem` further calls. -/
lemma retryGo_all_fail {E A : Type} (f : Nat → Except E (Option A)) :
    ∀ rem attempts, (∀ k, attempts ≤ k → k < attempts + rem → (f k).isOk = false) →
      (retryGo f attempts rem).1 = none ∧ numCalls (retryGo f attempts rem).2 = rem := by
  intro rem
  induction rem with
  | zero => intro attempts _; simp [retryGo, numCalls]
  | succ n ih =>
    intro attempts h
    have hfail := h attempts (le_refl _) (by omega)
    rw [retryGo]
    cases hfa : f attempts with
    | ok v => rw [hfa] at hfail; simp [Except.isOk, Except.toBool] at hfail
    | error e =>
      have hrec := ih (attempts + 1) (fun k hk1 hk2 => h k (by omega) (by omega))
      exact ⟨hrec.1, by rw [numCalls_cons_fail, hrec.2]⟩

/-- If the invocations before index `j` (within the window) raise and the
`j`-th returns `v`, the loop returns `v` after exactly `j + 1 - attempts`
further calls. -/
lemma retryGo_first_ok {E A : Type} (f : Nat → Except E (Option A)) :
    ∀ rem attempts j v, attempts ≤ j → j < attempts + rem →
      (∀ k, attempts ≤ k → k < j → (f k).isOk = false) → f j = .ok v →
      (retryGo f attempts rem).1 = v ∧
        numCalls (retryGo f attempts rem).2 = j + 1 - attempts := by
  intro rem
  induction rem with
  | zero => intro attempts j v h1 h2; omega
  | succ n ih =>
    intro attempts j v h1 h2 hfails hok
    rw [retryGo]
    rcases Nat.eq_or_lt_of_le h1 with heq | hlt
    · subst heq
      rw [hok]
      simp [numCalls]
    · have hfail := hfails attempts (le_refl _) hlt
      cases hfa : f attempts with
      | ok w => rw [hfa] at hfail; simp [Except.isOk, Except.toBool] at hfail
      | error e =>
        have hrec := ih (attempts + 1) j v (by omega) (by omega)
          (fun k hk1 hk2 => hfails k (by omega) hk2) hok
        refine ⟨hrec.1, ?_⟩
        rw [numCalls_cons_fail, hrec.2]
        omega

/-- The loop itself records no sleep events (the only sleep is the one taken
before the loop, line 42). -/
lemma retryGo_no_sleeps {E A : Type} (f : Nat → Except E (Option A)) :
    ∀ rem attempts, numSleeps (retryGo f attempts rem).2 = 0 := by
  intro rem
  induction rem with
  | zero => intro attempts; simp [retryGo, numSleeps]
  | succ n ih =>
    intro attempts
    rw [retryGo]
    cases hfa : f attempts with
    | ok v => simp [numSleeps]
    | error e => rw [numSleeps_cons_fail, ih (attempts + 1)]

/-- A window starting at a positive `attempts` emits no detailed error log
(line 50 fires only when `attempts == 0`). -/
lemma retryGo_errDetails_pos {E A : Type} (f : Nat → Except E (Option A)) :
    ∀ rem attempts, 0 < attempts → errDetails (retryGo f attempts rem).2 = [] := by
  intro rem
  induction rem with
  | zero => intro attempts _; simp [retryGo, errDetails]
  | succ n ih =>
    intro attempts hpos
    rw [retryGo]
    cases hfa : f attempts with
    | ok v => simp [errDetails]
    | error e =>
      rw [errDetails_cons_fail, ih (attempts + 1) (by omega)]
      have hne : ¬ attempts = 0 := by omega
      simp [hne]

/-- C3: the retry executor returns the value of the first invocation that does
not raise, making no further calls after it (success on the 3rd call means
exactly 3 calls); and when every invocation raises it makes exactly 20 calls,
logs the underlying error's detail exactly once (at the first failure), and
returns the no-result sentinel `none` instead of raising. -/
theorem c3_retry_executor {E A : Type} (f : Nat → Except E (Option A)) :
    (∀ j v, j < 20 → (∀ k, k < j → (f k).isOk = false) → f j = .ok v →
      (retry f).1 = v ∧ numCalls (retry f).2 = j + 1) ∧
    ((∀ k, k < 20 → (f k).isOk = false) →
      (retry f).1 = none ∧ numCalls (retry f).2 = 20 ∧
        ∀ e, f 0 = .error e → errDetails (retry f).2 = [e]) := by
  constructor
  · intro j v hj hfails hok
    have h := retryGo_first_ok f 20 0 j v (by omega) (by omega)
      (fun k _ hk => hfails k hk) hok
    rcases h with ⟨h1, h2⟩
    refine ⟨h1, ?_⟩
    simp only [retry, numCalls] at h2 ⊢
    simpa [numCalls] using h2
  · intro hall
    have h := retryGo_all_fail f 20 0 (fun k _ hk => hall k hk)
    rcases h with ⟨h1, h2⟩
    refine ⟨h1, ?_, ?_⟩
    · simp only [retry, numCalls] at h2 ⊢
      simpa [numCalls] using h2
    · intro e he
      show errDetails (REv.sleep 1 :: (retryGo f 0 20).2) = [e]
      have hstep : retryGo f 0 20 = (let r := retryGo f 1 19
          (r.1, REv.call 0 :: REv.logFail ::
            ((if 0 = 0 then [REv.logErr e] else []) ++ r.2))) := by
        rw [show (20 : Nat) = 19 + 1 from rfl, retryGo, he]
      rw [hstep]
      have hrest := retryGo_errDetails_pos f 19 1 (by omega)
      simp only [errDetails] at hrest ⊢
      simp [hrest]

/-- Operation used to witness C3: it raises on the first two calls and succeeds
on the third. -/
def c3Op : Nat → Except Nat (Option Nat) :=
  fun i => if i = 2 then .ok (some 7) else .error i

/-- Witness for C3: the operation `c3Op` succeeds on the 3rd call (index 2),
and `retry` returns that value after exactly 3 calls. -/
theorem c3_retry_executor_witness :
    ((2 : Nat) < 20 ∧ (∀ k, k < 2 → (c3Op k).isOk = false) ∧ c3Op 2 = .ok (some 7)) ∧
    ((retry c3Op).1 = some 7 ∧ numCalls (retry c3Op).2 = 2 + 1) :=
  ⟨⟨by decide, by decide, rfl⟩,
    (c3_retry_executor c3Op).1 2 (some 7) (by decide) (by decide) rfl⟩

/-- If the result of the loop is the sentinel `none` and the wrapped operation
never legitimately returns Python `None`, every invocation in the window
raised. -/
lemma retryGo_none_all_fail {E A : Type} (g : Nat → Except E (Option A))
    (h : ∀ j v, g j = .ok v → v.isSome) :
    ∀ rem attempts, (retryGo g attempts rem).1 = none →
      ∀ k, attempts ≤ k → k < attempts + rem → (g k).isOk = false := by
  intro rem
  induction rem with
  | zero => intro attempts _ k h1 h2; omega
  | succ n ih =>
    intro attempts hres k h1 h2
    rw [retryGo] at hres
    cases hg : g attempts with
    | ok v =>
      rw [hg] at hres
      simp only at hres
      have hsome := h attempts v hg
      rw [hres] at hsome
      simp at hsome
    | error e =>
      rw [hg] at hres
      simp only at hres
      rcases Nat.eq_or_lt_of_le h1 with heq | hlt
      · subst heq
        rw [hg]
        rfl
      · exact ih (attempts + 1) hres k hlt (by omega)

/-- C8 counterexample: the exhaustion value of `retry` is Python `None`, which
is not distinct from a legitimate `None` result.  An operation that always
raises and an operation that legitimately returns `None` on its first call
yield the same `retry` result `none`, although one run exhausted the budget
(20 calls) and the other succeeded at once (1 call). -/
theorem c8_sentinel_counterexample :
    (retry (fun _ => (Except.error () : Except Unit (Option Unit)))).1 = none ∧
    (retry (fun _ => (Except.ok none : Except Unit (Option Unit)))).1 = none ∧
    numCalls (retry (fun _ => (Except.error () : Except Unit (Option Unit)))).2 = 20 ∧
    numCalls (retry (fun _ => (Except.ok none : Except Unit (Option Unit)))).2 = 1 := by
  exact ⟨rfl, rfl, by decide, by decide⟩

/-- C8 amended: the exhaustion sentinel is Python `None`, which coincides with
a legitimate `None` result; only for operations that never successfully return
`None` does the sentinel characterize exhaustion — for such operations the
result is `none` exactly when all 20 invocations raised. -/
theorem c8_sentinel_amended {E A : Type} (g : Nat → Except E (Option A))
    (h : ∀ j v, g j = .ok v → v.isSome) :
    (retry g).1 = none ↔ ∀ k, k < 20 → (g k).isOk = false := by
  constructor
  · intro hres k hk
    exact retryGo_none_all_fail g h 20 0 hres k (by omega) (by omega)
  · intro hall
    exact (retryGo_all_fail g 20 0 (fun k _ hk => hall k hk)).1

/-- Witness for C8 amended: an always-raising operation of a type that never
returns `None` yields the sentinel. -/
theorem c8_sentinel_amended_witness :
    (retry (fun _ => (Except.error () : Except Unit (Option Nat)))).1 = none :=
  (c8_sentinel_amended (fun _ => (Except.error () : Except Unit (Option Nat)))
    (fun _ _ hv => Except.noConfusion hv)).mpr (by decide)

/-- Operation used in the C9 counterexample: every call raises. -/
def c9Op : Nat → Except Unit (Option Unit) := fun _ => .error ()

/-- C9 counterexample: for an operation that fails 20 consecutive times,
`retry` performs 20 calls yet its trace contains exactly one sleep, and that
sleep is the very first event — before the first call.  Hence no 1-second
sleep occurs between any pair of consecutive attempts (19 gaps would need 19
sleeps), refuting the claimed inter-attempt delay. -/
theorem c9_sleep_counterexample :
    numCalls (retry c9Op).2 = 20 ∧
    (retry c9Op).2.head? = some (REv.sleep 1) ∧
    ¬ numCalls (retry c9Op).2 - 1 ≤ numSleeps (retry c9Op).2 := by
  exact ⟨by decide, rfl, by decide⟩

/-- C9 amended: `retry` sleeps one second exactly once, before the first
attempt (line 42); no sleep separates consecutive attempts. -/
theorem c9_sleep_amended {E A : Type} (g : Nat → Except E (Option A)) :
    (retry g).2.head? = some (REv.sleep 1) ∧ numSleeps (retry g).2 = 1 := by
  constructor
  · rfl
  · have h := retryGo_no_sleeps g 20 0
    simp only [retry, numSleeps] at h ⊢
    simp [h]

/-! ## Fill Tracker (`wait_for_order`, binance_api_manager.py:76-101) -/

/-- Exchange order-status record, with the fields the core reads:
`status`, `orderId`, `cummulativeQuoteQty`. -/
structure Order where
  status : String
  orderId : Nat
  cummulativeQuoteQty : ℚ
deriving DecidableEq

/-- Second loop of `wait_for_order` (lines 90-99): while the held status is not
`FILLED`, fetch again; a fetch that raises (`fetch i = none`) is logged and the
held record kept.  `fetch i` is the `i`-th status fetch overall, `i` counts
fetches already performed, and the result pairs the returned record with the
total number of fetches; `none` marks fuel exhaustion (divergence). -/
def waitGo (fetch : Nat → Option Order) (stat : Order) (i : Nat) : Nat → Option (Order × Nat)
  | 0 => none
  | fuel + 1 =>
    if stat.status = "FILLED" then some (stat, i)
    else
      match fetch i with
      | some s => waitGo fetch s (i + 1) fuel
      | none => waitGo fetch stat (i + 1) fuel

/-- First loop of `wait_for_order` (lines 77-87): fetch until some fetch
returns a record (errors are logged and retried), then enter the second
loop with it. -/
def waitInit (fetch : Nat → Option Order) (i : Nat) : Nat → Option (Order × Nat)
  | 0 => none
  | fuel + 1 =>
    match fetch i with
    | some s => waitGo fetch s (i + 1) fuel
    | none => waitInit fetch (i + 1) fuel

/-- Model of `wait_for_order` (lines 76-101), parameterised by the stream of
status-fetch outcomes (`none` = the fetch raised). -/
def wait_for_order (fetch : Nat → Option Order) (fuel : Nat) : Option (Order × Nat) :=
  waitInit fetch 0 fuel

lemma waitGo_filled (fetch : Nat → Option Order) :
    ∀ fuel stat i o nb, waitGo fetch stat i fuel = some (o, nb) → o.status = "FILLED" := by
  intro fuel
  induction fuel with
  | zero => intro stat i o nb h; simp [waitGo] at h
  | succ m ih =>
    intro stat i o nb h
    rw [waitGo] at h
    by_cases hs : stat.status = "FILLED"
    · rw [if_pos hs] at h
      simp only [Option.some.injEq, Prod.mk.injEq] at h
      rw [← h.1]
      exact hs
    · rw [if_neg hs] at h
      cases hf : fetch i with
      | some s => rw [hf] at h; exact ih s (i + 1) o nb h
      | none => rw [hf] at h; exact ih stat (i + 1) o nb h

lemma waitInit_filled (fetch : Nat → Option Order) :
    ∀ fuel i o nb, waitInit fetch i fuel = some (o, nb) → o.status = "FILLED" := by
  intro fuel
  induction fuel with
  | zero => intro i o nb h; simp [waitInit] at h
  | succ m ih =>
    intro i o nb h
    rw [waitInit] at h
    cases hf : fetch i with
    | some s => rw [hf] at h; exact waitGo_filled fetch m s (i + 1) o nb h
    | none => rw [hf] at h; exact ih (i + 1) o nb h

lemma waitGo_first_filled (fetch : Nat → Option Order) (n : Nat) (o : Order)
    (hn : fetch n = some o) (ho : o.status = "FILLED")
    (hbefore : ∀ k, k < n → (fetch k).map Order.status ≠ some "FILLED") :
    ∀ fuel i stat, i ≤ n → stat.status ≠ "FILLED" → n + 2 - i ≤ fuel →
      waitGo fetch stat i fuel = some (o, n + 1) := by
  intro fuel
  induction fuel with
  | zero => intro i stat h1 h2 h3; omega
  | succ m ih =>
    intro i stat hin hstat hfuel
    rw [waitGo, if_neg hstat]
    rcases Nat.eq_or_lt_of_le hin with heq | hlt
    · subst heq
      rw [hn]
      obtain ⟨m', rfl⟩ : ∃ m', m = m' + 1 := ⟨m - 1, by omega⟩
      show waitGo fetch o (i + 1) (m' + 1) = some (o, i + 1)
      rw [waitGo, if_pos ho]
    · cases hf : fetch i with
      | some s =>
        have hs : s.status ≠ "FILLED" := by
          have hb := hbefore i hlt
          rw [hf] at hb
          simpa using hb
        exact ih (i + 1) s (by omega) hs (by omega)
      | none => exact ih (i + 1) stat (by omega) hstat (by omega)

lemma waitInit_first_filled (fetch : Nat → Option Order) (n : Nat) (o : Order)
    (hn : fetch n = some o) (ho : o.status = "FILLED")
    (hbefore : ∀ k, k < n → (fetch k).map Order.status ≠ some "FILLED") :
    ∀ fuel i, i ≤ n → n + 2 - i ≤ fuel → waitInit fetch i fuel = some (o, n + 1) := by
  intro fuel
  induction fuel with
  | zero => intro i h1 h2; omega
  | succ m ih =>
    intro i hin hfuel
    rw [waitInit]
    rcases Nat.eq_or_lt_of_le hin with heq | hlt
    · subst heq
      rw [hn]
      obtain ⟨m', rfl⟩ : ∃ m', m = m' + 1 := ⟨m - 1, by omega⟩
      show waitGo fetch o (i + 1) (m' + 1) = some (o, i + 1)
      rw [waitGo, if_pos ho]
    · cases hf : fetch i with
      | some s =>
        have hs : s.status ≠ "FILLED" := by
          have hb := hbefore i hlt
          rw [hf] at hb
          simpa using hb
        exact waitGo_first_filled fetch n o hn ho hbefore m (i + 1) s (by omega) hs (by omega)
      | none => exact ih (i + 1) (by omega) (by omega)

/-- C4: `wait_for_order` returns only on a `FILLED` status, performs exactly
one status fetch per inspected status, polls again on every non-`FILLED`
status and on every fetch error, and returns the record of the first fetch
whose status is `FILLED` — having performed exactly `n + 1` fetches when that
first `FILLED` fetch has index `n`. -/
theorem c4_wait_for_order (fetch : Nat → Option Order) :
    (∀ fuel o nb, wait_for_order fetch fuel = some (o, nb) → o.status = "FILLED") ∧
    (∀ n o, (∀ k, k < n → (fetch k).map Order.status ≠ some "FILLED") →
      fetch n = some o → o.status = "FILLED" →
      ∀ fuel, n + 2 ≤ fuel → wait_for_order fetch fuel = some (o, n + 1)) := by
  constructor
  · intro fuel o nb h
    exact waitInit_filled fetch fuel 0 o nb h
  · intro n o hbefore hn ho fuel hfuel
    exact waitInit_first_filled fetch n o hn ho hbefore fuel 0 (by omega) (by omega)

/-- Status-fetch stream used to witness C4: the sequence
`[NEW, NEW, PARTIALLY_FILLED, FILLED, ...]`. -/
def c4Fetch : Nat → Option Order :=
  fun i => some ⟨if i = 2 then "PARTIALLY_FILLED" else if 3 ≤ i then "FILLED" else "NEW", 17, 0⟩

/-- Witness for C4 on the status sequence `[New, New, PartiallyFilled,
Filled]`: exactly 4 fetches, returning the 4th record. -/
theorem c4_wait_for_order_witness :
    (∀ k, k < 3 → (c4Fetch k).map Order.status ≠ some "FILLED") ∧
    c4Fetch 3 = some ⟨"FILLED", 17, 0⟩ ∧
    (⟨"FILLED", 17, 0⟩ : Order).status = "FILLED" ∧
    3 + 2 ≤ 5 ∧
    wait_for_order c4Fetch 5 = some (⟨"FILLED", 17, 0⟩, 3 + 1) :=
  ⟨by decide, by decide, rfl, by decide,
    (c4_wait_for_order c4Fetch).2 3 ⟨"FILLED", 17, 0⟩ (by decide) (by decide) rfl 5 (by decide)⟩

/-! ## Sell post-fill balance confirmation (`_sell_alt`, lines 182-184) -/

/-- Python exception in the trade paths: an exception raised by the exchange
client, or a TypeError / ZeroDivisionError raised by arithmetic or comparison
on an absent (`None`) value or by division by a zero price. -/
inductive PyErr (E : Type) where
  | api : E → PyErr E
  | numError : PyErr E
deriving DecidableEq

/-- Model of the post-fill confirmation loop (lines 182-184): fetch the alt
balance and, while it is `>=` the pre-sell balance, fetch again.  `bal i` is
the `i`-th balance fetch of the loop; an exchange error propagates uncaught,
and comparison with an absent value raises a TypeError.  The `ok` result is
the total number of fetches performed; `none` marks fuel exhaustion
(divergence). -/
def confirmLoop {E : Type} (bal : Nat → Except E (Option ℚ)) (pre : Option ℚ) :
    Nat → Nat → Option (Except (PyErr E) Nat)
  | _, 0 => none
  | i, fuel + 1 =>
    match bal i with
    | .error e => some (.error (.api e))
    | .ok newBal =>
      match newBal, pre with
      | some nb, some p =>
        if nb ≥ p then confirmLoop bal pre (i + 1) fuel else some (.ok (i + 1))
      | _, _ => some (.error .numError)

lemma confirmLoop_succ_ok {E : Type} (bal : Nat → Except E (Option ℚ)) (p : ℚ)
    (i fuel : Nat) (q : ℚ) (hb : bal i = .ok (some q)) :
    confirmLoop bal (some p) i (fuel + 1)
      = if q ≥ p then confirmLoop bal (some p) (i + 1) fuel else some (.ok (i + 1)) := by
  rw [confirmLoop, hb]

lemma confirmLoop_complete {E : Type} (g : Nat → ℚ) (p : ℚ) (n : Nat)
    (hbefore : ∀ k, k < n → p ≤ g k) (hn : g n < p) :
    ∀ fuel i, i ≤ n → n + 1 - i ≤ fuel →
      confirmLoop (fun j => (Except.ok (some (g j)) : Except E (Option ℚ))) (some p) i fuel
        = some (.ok (n + 1)) := by
  intro fuel
  induction fuel with
  | zero => intro i h1 h2; omega
  | succ m ih =>
    intro i hin hfuel
    rw [confirmLoop_succ_ok _ p i m (g i) rfl]
    rcases Nat.eq_or_lt_of_le hin with heq | hlt
    · subst heq
      rw [if_neg (not_le.mpr hn)]
    · rw [if_pos (hbefore i hlt)]
      exact ih (i + 1) (by omega) (by omega)

lemma confirmLoop_sound {E : Type} (g : Nat → ℚ) (p : ℚ) :
    ∀ fuel i r,
      confirmLoop (fun j => (Except.ok (some (g j)) : Except E (Option ℚ))) (some p) i fuel
        = some (.ok r) →
      i < r ∧ g (r - 1) < p ∧ ∀ k, i ≤ k → k < r - 1 → p ≤ g k := by
  intro fuel
  induction fuel with
  | zero => intro i r h; simp [confirmLoop] at h
  | succ m ih =>
    intro i r h
    rw [confirmLoop_succ_ok _ p i m (g i) rfl] at h
    by_cases hge : g i ≥ p
    · rw [if_pos hge] at h
      obtain ⟨h1, h2, h3⟩ := ih (i + 1) r h
      refine ⟨by omega, h2, ?_⟩
      intro k hk1 hk2
      rcases Nat.eq_or_lt_of_le hk1 with heq | hlt
      · subst heq; exact hge
      · exact h3 k hlt hk2
    · rw [if_neg hge] at h
      simp only [Option.some.injEq, Except.ok.injEq] at h
      subst h
      refine ⟨by omega, by simpa using not_le.mp hge, ?_⟩
      intro k hk1 hk2
      omega

/-- C5: after a sell is reported filled, the confirmation loop refetches the
alt balance for every value `>=` the pre-sell balance, and exits exactly at
the first fetched value strictly below it: if the first such value has index
`n`, the loop performs exactly `n + 1` fetches (given enough fuel), and any
terminating run performs exactly those `n + 1` fetches. -/
theorem c5_sell_balance_confirmation (g : Nat → ℚ) (p : ℚ) (n : Nat)
    (hbefore : ∀ k, k < n → p ≤ g k) (hn : g n < p) :
    (∀ fuel, n + 1 ≤ fuel →
      confirmLoop (fun j => (Except.ok (some (g j)) : Except Unit (Option ℚ))) (some p) 0 fuel
        = some (.ok (n + 1))) ∧
    (∀ fuel r,
      confirmLoop (fun j => (Except.ok (some (g j)) : Except Unit (Option ℚ))) (some p) 0 fuel
          = some (.ok r) →
      r = n + 1) := by
  constructor
  · intro fuel hfuel
    exact confirmLoop_complete g p n hbefore hn fuel 0 (by omega) (by omega)
  · intro fuel r h
    obtain ⟨h1, h2, h3⟩ := confirmLoop_sound g p fuel 0 r h
    by_contra hne
    rcases Nat.lt_or_ge (r - 1) n with hlt | hge
    · exact absurd (hbefore (r - 1) hlt) (not_le.mpr h2)
    · have : r - 1 ≠ n := by omega
      exact absurd (h3 n (by omega) (by omega)) (not_le.mpr hn)

/-- Balance stream used to witness C5: `12.3456, 12.3456, 12` against the
pre-sell balance `12.3456`. -/
def c5Bal : Nat → ℚ := fun i => if i = 2 then 12 else 123456 / 10000

/-- Witness for C5: the loop exits at the third fetch, the first strictly
below the pre-sell balance. -/
theorem c5_sell_balance_confirmation_witness :
    (∀ k, k < 2 → (123456 / 10000 : ℚ) ≤ c5Bal k) ∧ c5Bal 2 < 123456 / 10000 ∧
    (2 + 1 ≤ 5 ∧
      confirmLoop (fun j => (Except.ok (some (c5Bal j)) : Except Unit (Option ℚ)))
        (some (123456 / 10000)) 0 5 = some (.ok (2 + 1))) :=
  ⟨by intro k hk; interval_cases k <;> norm_num [c5Bal],
    by norm_num [c5Bal],
    by decide,
    (c5_sell_balance_confirmation c5Bal (123456 / 10000) 2
      (by intro k hk; interval_cases k <;> norm_num [c5Bal]) (by norm_num [c5Bal])).1 5
      (by decide)⟩

/-! ## Order Submitter paths (`_sell_alt` lines 150-190, `_buy_alt` lines 106-145) -/

/-- Arithmetic of `sell_quantity` (line 70) applied to a fetched balance: a
`None` balance raises a TypeError when multiplied. -/
def sellQuantityOpt {E : Type} (t : Int) (b : Option ℚ) : Except (PyErr E) ℚ :=
  match b with
  | none => .error .numError
  | some q => .ok (sell_quantity t q)

/-- Arithmetic of `buy_quantity` (line 74) applied to fetched values: a `None`
balance or `None` price raises a TypeError, a zero price a
ZeroDivisionError. -/
def buyQuantityOpt {E : Type} (t : Int) (b p : Option ℚ) : Except (PyErr E) ℚ :=
  match b with
  | none => .error .numError
  | some bq =>
    match p with
    | none => .error .numError
    | some pq => if pq = 0 then .error .numError else .ok (buy_quantity t bq pq)

/-- Submission loop of `_sell_alt` (lines 165-169): `while order is None:
order = order_market_sell(...)` — with no exception handler, so a raised
error propagates out of `_sell_alt`.  `marketSell i qty` is the `i`-th
submission attempt; `none` marks fuel exhaustion (divergence). -/
def sellSubmit {E : Type} (marketSell : Nat → ℚ → Except E (Option Order)) (qty : ℚ) :
    Nat → Nat → Option (Except E Order)
  | _, 0 => none
  | i, fuel + 1 =>
    match marketSell i qty with
    | .error e => some (.error e)
    | .ok (some o) => some (.ok o)
    | .ok none => sellSubmit marketSell qty (i + 1) fuel

/-- Submission loop of `_buy_alt` (lines 122-135): each iteration fetches the
current ticker price (line 128) and submits a limit-buy at it; exchange and
unexpected errors are both caught and the loop retried.  `price (i + 1)` is
the price fetch of iteration `i` (fetch 0 was used for sizing); `none` marks
fuel exhaustion (divergence). -/
def buySubmit {E : Type} (price : Nat → Except E (Option ℚ))
    (limitBuy : Nat → ℚ → Option ℚ → Except E (Option Order)) (qty : ℚ) :
    Nat → Nat → Option Order
  | _, 0 => none
  | i, fuel + 1 =>
    match price (i + 1) with
    | .error _ => buySubmit price limitBuy qty (i + 1) fuel
    | .ok p =>
      match limitBuy i qty p with
      | .error _ => buySubmit price limitBuy qty (i + 1) fuel
      | .ok none => buySubmit price limitBuy qty (i + 1) fuel
      | .ok (some o) => some o

/-- Model of `_sell_alt` (lines 150-190), parameterised by the exchange
behaviour: `bal i s` is the `i`-th balance fetch overall (for asset symbol
`s`; fetches 0 and 1 are the pre-trade alt and crypto balances, fetches
`2, 3, …` belong to the confirmation loop), `stepSize` is the LOT_SIZE
step-size string fetched inside `sell_quantity` via `get_alt_tick`,
`marketSell` the submission attempts, and `getOrder` the status fetches of
`wait_for_order` (`.toOption`, because that loop catches all exceptions).
Logging and trade-log persistence are side channels and not modelled.
Result: `some (.ok o)` — returns order `o`; `some (.error e)` — raises `e`
(caught only by the caller `retry`); `none` — diverges in one of the
unbounded loops (fuel exhausted). -/
def sellAltBody {E : Type} (bal : Nat → String → Except E (Option ℚ))
    (stepSize : Except E (List Char))
    (marketSell : Nat → ℚ → Except E (Option Order))
    (getOrder : Nat → Except E Order)
    (alt crypto : String) (fuel : Nat) : Option (Except (PyErr E) Order) :=
  match bal 0 alt with
  | .error e => some (.error (.api e))
  | .ok altBal =>
  match bal 1 crypto with
  | .error e => some (.error (.api e))
  | .ok _cryptoBal =>
  match stepSize with
  | .error e => some (.error (.api e))
  | .ok s =>
  match sellQuantityOpt (get_alt_tick s) altBal with
  | .error er => some (.error er)
  | .ok qty =>
  match sellSubmit marketSell qty 0 fuel with
  | none => none
  | some (.error e) => some (.error (.api e))
  | some (.ok order) =>
  match wait_for_order (fun i => (getOrder i).toOption) fuel with
  | none => none
  | some (_stat, _) =>
  match confirmLoop (fun i => bal (2 + i) alt) altBal 0 fuel with
  | none => none
  | some (.error er) => some (.error er)
  | some (.ok _) => some (.ok order)

/-- Model of `_buy_alt` (lines 106-145): pre-trade balance fetches, sizing
price fetch (line 118), quantity computation, guarded submission loop, fill
tracking.  Parameters as in `sellAltBody`, plus the sizing/limit price
fetches `price` and the guarded `limitBuy` submissions. -/
def buyAltBody {E : Type} (bal : Nat → String → Except E (Option ℚ))
    (stepSize : Except E (List Char))
    (price : Nat → Except E (Option ℚ))
    (limitBuy : Nat → ℚ → Option ℚ → Except E (Option Order))
    (getOrder : Nat → Except E Order)
    (alt crypto : String) (fuel : Nat) : Option (Except (PyErr E) Order) :=
  match bal 0 alt with
  | .error e => some (.error (.api e))
  | .ok _altBal =>
  match bal 1 crypto with
  | .error e => some (.error (.api e))
  | .ok cryptoBal =>
  match price 0 with
  | .error e => some (.error (.api e))
  | .ok p0 =>
  match stepSize with
  | .error e => some (.error (.api e))
  | .ok s =>
  match buyQuantityOpt (get_alt_tick s) cryptoBal p0 with
  | .error er => some (.error er)
  | .ok qty =>
  match buySubmit price limitBuy qty 0 fuel with
  | none => none
  | some order =>
  match wait_for_order (fun i => (getOrder i).toOption) fuel with
  | none => none
  | some (_stat, _) => some (.ok order)

/-- Model of `sell_alt` (lines 147-148): the bounded `retry` wrapper around
`_sell_alt`.  The returned Python value lives in `Option Order`; the wrapped
body's successful order is injected with `some`, so the outer `none` result
is the exhaustion sentinel of line 52. -/
def sell_alt {E : Type} (bal : Nat → String → Except E (Option ℚ))
    (stepSize : Except E (List Char))
    (marketSell : Nat → ℚ → Except E (Option Order))
    (getOrder : Nat → Except E Order)
    (alt crypto : String) (fuel : Nat) :
    Option (Option Order × List (REv (PyErr E))) :=
  retryD (fun _ => (sellAltBody bal stepSize marketSell getOrder alt crypto fuel).map
    (fun r => r.map some))

/-- Always-raising exchange behaviour (balance fetches) used for C7. -/
def c7Bal : Nat → String → Except Unit (Option ℚ) := fun _ _ => .error ()

/-- Always-raising market-sell submissions used for C7. -/
def c7MarketSell : Nat → ℚ → Except Unit (Option Order) := fun _ _ => .error ()

/-- Always-raising order-status fetches used for C7. -/
def c7GetOrder : Nat → Except Unit Order := fun _ => .error ()

/-- C7 counterexample: on a persistently unreachable exchange (every client
call raises) `sell_alt` does return the no-result sentinel — the first
balance fetch raises out of `_sell_alt` (none of the sell path's statements
catch it), every one of the 20 bounded attempts fails, and `retry` returns
`None` instead of blocking indefinitely. -/
theorem c7_sell_sentinel_counterexample :
    (sell_alt c7Bal (.error ()) c7MarketSell c7GetOrder "ALT" "BTC" 3).map (fun r => r.1)
      = some none ∧
    (sell_alt c7Bal (.error ()) c7MarketSell c7GetOrder "ALT" "BTC" 3).map
      (fun r => numCalls r.2) = some 20 := by
  exact ⟨rfl, by decide⟩

/-- C7 amended: terminal failure is possible from the outer bounded retry on
the sell path as well — `_sell_alt` guards none of its balance fetches or
submissions, so whenever the first balance fetch raises persistently, every
attempt raises, and `sell_alt` terminates with the no-result sentinel after
exactly 20 attempts; only the `wait_for_order` polling loops block
indefinitely. -/
theorem c7_sell_sentinel_amended {E : Type} (bal : Nat → String → Except E (Option ℚ))
    (stepSize : Except E (List Char))
    (marketSell : Nat → ℚ → Except E (Option Order))
    (getOrder : Nat → Except E Order)
    (alt crypto : String) (fuel : Nat) (e : E)
    (h : bal 0 alt = .error e) :
    (sell_alt bal stepSize marketSell getOrder alt crypto fuel).map (fun r => r.1)
      = some none ∧
    (sell_alt bal stepSize marketSell getOrder alt crypto fuel).map (fun r => numCalls r.2)
      = some 20 := by
  have hbody : sellAltBody bal stepSize marketSell getOrder alt crypto fuel
      = some (.error (.api e)) := by
    simp [sellAltBody, h]
  have hsell : sell_alt bal stepSize marketSell getOrder alt crypto fuel
      = some (retry (fun _ => (Except.error (PyErr.api e) : Except (PyErr E) (Option Order)))) := by
    have hf : (fun _ : Nat =>
        (sellAltBody bal stepSize marketSell getOrder alt crypto fuel).map
          (fun r => r.map some))
        = (fun i : Nat => some ((fun _ : Nat =>
            (Except.error (PyErr.api e) : Except (PyErr E) (Option Order))) i)) := by
      funext i
      rw [hbody]
      rfl
    rw [sell_alt, hf, retryD_total]
  have hres := retryGo_all_fail
    (fun _ => (Except.error (PyErr.api e) : Except (PyErr E) (Option Order)))
    20 0 (fun k _ _ => rfl)
  rw [hsell]
  constructor
  · show some ((retry (fun _ =>
        (Except.error (PyErr.api e) : Except (PyErr E) (Option Order)))).1) = some none
    exact congrArg some hres.1
  · show some (numCalls (retry (fun _ =>
        (Except.error (PyErr.api e) : Except (PyErr E) (Option Order)))).2) = some 20
    have h2 := hres.2
    simp only [retry, numCalls] at h2 ⊢
    simp [h2]

/-- Witness for C7 amended at the always-raising exchange. -/
theorem c7_sell_sentinel_amended_witness :
    c7Bal 0 "ALT" = .error () ∧
    ((sell_alt c7Bal (.error ()) c7MarketSell c7GetOrder "ALT" "BTC" 7).map (fun r => r.1)
        = some none ∧
      (sell_alt c7Bal (.error ()) c7MarketSell c7GetOrder "ALT" "BTC" 7).map
        (fun r => numCalls r.2) = some 20) :=
  ⟨rfl, c7_sell_sentinel_amended c7Bal (.error ()) c7MarketSell c7GetOrder "ALT" "BTC" 7 () rfl⟩

/-- With every balance fetch of the confirmation loop present, the loop never
raises the comparison TypeError. -/
lemma confirmLoop_no_numError {E : Type} (bal2 : Nat → Except E (Option ℚ)) (pre : ℚ)
    (h : ∀ i, ∃ q, bal2 i = .ok (some q)) :
    ∀ fuel i, confirmLoop bal2 (some pre) i fuel ≠ some (.error .numError) := by
  intro fuel
  induction fuel with
  | zero => intro i h'; simp [confirmLoop] at h'
  | succ m ih =>
    intro i
    obtain ⟨q, hq⟩ := h i
    rw [confirmLoop_succ_ok bal2 pre i m q hq]
    by_cases hge : q ≥ pre
    · rw [if_pos hge]
      exact ih (i + 1)
    · rw [if_neg hge]
      simp

/-- C10: implicit precondition of the trade paths on fetch results.  An absent
alt balance makes the sell path raise an unguarded TypeError at the
`sell_quantity` arithmetic; an absent quote balance, or an absent or zero
sizing price, makes the buy path raise an unguarded TypeError /
ZeroDivisionError at the `buy_quantity` arithmetic; an absent balance at the
sell path's post-fill comparison likewise raises.  Under the precondition
that every balance fetch returns a present value and every price fetch a
present positive value, these unguarded error outcomes are unreachable in
both paths. -/
theorem c10_fetch_preconditions {E : Type} (bal : Nat → String → Except E (Option ℚ))
    (stepSize : Except E (List Char))
    (price : Nat → Except E (Option ℚ))
    (marketSell : Nat → ℚ → Except E (Option Order))
    (limitBuy : Nat → ℚ → Option ℚ → Except E (Option Order))
    (getOrder : Nat → Except E Order)
    (alt crypto : String) (fuel : Nat) :
    (∀ b1 s, bal 0 alt = .ok none → bal 1 crypto = .ok b1 → stepSize = .ok s →
      sellAltBody bal stepSize marketSell getOrder alt crypto fuel
        = some (.error .numError)) ∧
    (∀ a0 p0 s, bal 0 alt = .ok a0 → bal 1 crypto = .ok none → price 0 = .ok p0 →
      stepSize = .ok s →
      buyAltBody bal stepSize price limitBuy getOrder alt crypto fuel
        = some (.error .numError)) ∧
    (∀ a0 b1 s, bal 0 alt = .ok a0 → bal 1 crypto = .ok (some b1) → stepSize = .ok s →
      (price 0 = .ok none ∨ price 0 = .ok (some 0)) →
      buyAltBody bal stepSize price limitBuy getOrder alt crypto fuel
        = some (.error .numError)) ∧
    (∀ (bal2 : Nat → Except E (Option ℚ)) (pre : ℚ) i f2, bal2 i = .ok none →
      confirmLoop bal2 (some pre) i (f2 + 1) = some (.error .numError)) ∧
    ((∀ i s2, ∃ q, bal i s2 = .ok (some q)) →
      (∀ i, ∃ p, (0 : ℚ) < p ∧ price i = .ok (some p)) →
      sellAltBody bal stepSize marketSell getOrder alt crypto fuel
          ≠ some (.error .numError) ∧
      buyAltBody bal stepSize price limitBuy getOrder alt crypto fuel
          ≠ some (.error .numError)) := by
  refine ⟨?_, ?_, ?_, ?_, ?_⟩
  · intro b1 s h0 h1 hs
    simp [sellAltBody, h0, h1, hs, sellQuantityOpt]
  · intro a0 p0 s h0 h1 hp hs
    simp [buyAltBody, h0, h1, hp, hs, buyQuantityOpt]
  · intro a0 b1 s h0 h1 hs hp
    rcases hp with hp | hp <;>
      simp [buyAltBody, h0, h1, hp, hs, buyQuantityOpt]
  · intro bal2 pre i f2 hb
    rw [confirmLoop, hb]
  · intro hbal hprice
    obtain ⟨a0, ha0⟩ := hbal 0 alt
    obtain ⟨b1, hb1⟩ := hbal 1 crypto
    obtain ⟨p0, hp0pos, hp0⟩ := hprice 0
    constructor
    · cases hss : stepSize with
      | error e2 => simp [sellAltBody, ha0, hb1, hss]
      | ok s =>
        simp only [sellAltBody, ha0, hb1, hss, sellQuantityOpt]
        cases hsub : sellSubmit marketSell (sell_quantity (get_alt_tick s) a0) 0 fuel with
        | none => simp
        | some r =>
          cases r with
          | error e2 => simp
          | ok order =>
            cases hw : wait_for_order (fun i => (getOrder i).toOption) fuel with
            | none => simp
            | some pr =>
              obtain ⟨st, cnt⟩ := pr
              cases hc : confirmLoop (fun i => bal (2 + i) alt) (some a0) 0 fuel with
              | none => simp
              | some rc =>
                cases rc with
                | ok cnt2 => simp
                | error er =>
                  cases er with
                  | api e2 => simp
                  | numError =>
                    exact absurd hc
                      (confirmLoop_no_numError _ a0 (fun i => hbal (2 + i) alt) fuel 0)
    · cases hss : stepSize with
      | error e2 => simp [buyAltBody, ha0, hb1, hp0, hss]
      | ok s =>
        have hp0ne : p0 ≠ 0 := ne_of_gt hp0pos
        simp only [buyAltBody, ha0, hb1, hp0, hss, buyQuantityOpt, if_neg hp0ne]
        cases hsub : buySubmit price limitBuy (buy_quantity (get_alt_tick s) b1 p0) 0 fuel with
        | none => simp
        | some order =>
          cases hw : wait_for_order (fun i => (getOrder i).toOption) fuel with
          | none => simp
          | some pr =>
            obtain ⟨st, cnt⟩ := pr
            simp

/-- Exchange behaviour for the C10 witness: the first balance fetch absent,
later ones present. -/
def c10BalAbsent : Nat → String → Except Unit (Option ℚ) :=
  fun i _ => if i = 0 then .ok none else .ok (some 1)

/-- Exchange behaviour for the C10 witness: all balance fetches present. -/
def c10BalPresent : Nat → String → Except Unit (Option ℚ) := fun _ _ => .ok (some 1)

/-- Price fetches for the C10 witness: always present and positive. -/
def c10Price : Nat → Except Unit (Option ℚ) := fun _ => .ok (some 1)

/-- Market-sell submissions for the C10 witness: immediately successful. -/
def c10MarketSell : Nat → ℚ → Except Unit (Option Order) :=
  fun _ _ => .ok (some ⟨"FILLED", 17, 0⟩)

/-- Limit-buy submissions for the C10 witness: immediately successful. -/
def c10LimitBuy : Nat → ℚ → Option ℚ → Except Unit (Option Order) :=
  fun _ _ _ => .ok (some ⟨"FILLED", 17, 0⟩)

/-- Order-status fetches for the C10 witness: immediately `FILLED`. -/
def c10GetOrder : Nat → Except Unit Order := fun _ => .ok ⟨"FILLED", 17, 0⟩

/-- Step-size fetch for the C10 witness. -/
def c10Step : Except Unit (List Char) := .ok "0.00100000".toList

/-- Witness for C10: on an absent first balance the sell path yields the
unguarded TypeError outcome; with all fetches present and a positive price
neither path can yield it. -/
theorem c10_fetch_preconditions_witness :
    (c10BalAbsent 0 "ALT" = .ok none ∧ c10BalAbsent 1 "BTC" = .ok (some 1) ∧
      c10Step = .ok "0.00100000".toList ∧
      sellAltBody c10BalAbsent c10Step c10MarketSell c10GetOrder "ALT" "BTC" 4
        = some (.error .numError)) ∧
    ((∀ i s2, ∃ q, c10BalPresent i s2 = .ok (some q)) ∧
      (∀ i, ∃ p, (0 : ℚ) < p ∧ c10Price i = .ok (some p)) ∧
      (sellAltBody c10BalPresent c10Step c10MarketSell c10GetOrder "ALT" "BTC" 4
          ≠ some (.error .numError) ∧
        buyAltBody c10BalPresent c10Step c10Price c10LimitBuy c10GetOrder "ALT" "BTC" 4
          ≠ some (.error .numError))) :=
  ⟨⟨rfl, rfl, rfl,
    (c10_fetch_preconditions c10BalAbsent c10Step c10Price c10MarketSell c10LimitBuy
        c10GetOrder "ALT" "BTC" 4).1 (some 1) "0.00100000".toList rfl rfl rfl⟩,
    ⟨fun _ _ => ⟨1, rfl⟩, fun _ => ⟨1, by norm_num, rfl⟩,
      (c10_fetch_preconditions c10BalPresent c10Step c10Price c10MarketSell c10LimitBuy
          c10GetOrder "ALT" "BTC" 4).2.2.2.2
        (fun _ _ => ⟨1, rfl⟩) (fun _ => ⟨1, by norm_num, rfl⟩)⟩⟩

end BinanceBot
